import Mathlib

/-!
# HDRView: asynchronous image edits and the image collection

A shallow embedding of `GLImage` (src/src/GLImage.cpp) and of
`HDRImageManager` (src/src/hdrimagemanager.cpp), with theorems about the
drain protocol of asynchronous edits and about the index bookkeeping of the
image collection.

Conventions of the embedding

* A `shared_ptr<T>` is an `Option T`; `none` is the null pointer.
* Pixel data and undo records are abstract: the types `Img` and `Rec` are
  parameters.
* `float` progress values are rationals (only `-1`, `0` and `1` are written by
  the modelled code).
* `int` indices are `Int`; a collection never holds `2^31` images, so no
  index arithmetic wraps.
* Answers that the code obtains from outside (whether the background task is
  ready, what the texture loader answers) are inputs of the model.
-/

namespace HDRView

/-! ## Collaborators of `GLImage` -/

/-- The type `ImageCommandResult` of the source: the pair
`(shared_ptr<HDRImage>, UndoPtr)` returned by an image command; either
component may be the null pointer. -/
abbrev ImageCommandResult (Img Rec : Type) := Option Img × Option Rec

/-- Modelled from the spec: the class `CommandHistory` (its header is not among
the sources). "Ordered sequence of UndoRecord, a cursor position, and a saved
marker index." -/
structure CommandHistory (Rec : Type) where
  records : List Rec
  cursor : Nat
  savedMarker : Nat
deriving DecidableEq, Repr

/-- Modelled from the spec: the default constructor `CommandHistory()`, an
empty history with cursor and saved marker at `0`. -/
def CommandHistory.fresh {Rec : Type} : CommandHistory Rec :=
  { records := [], cursor := 0, savedMarker := 0 }

/-- Modelled from the spec: `CommandHistory::addCommand`. "Appends record at
cursor, truncating any existing redo tail; advances cursor by one." -/
def CommandHistory.addCommand {Rec : Type} (h : CommandHistory Rec) (r : Rec) :
    CommandHistory Rec :=
  { h with records := h.records.take h.cursor ++ [r], cursor := h.cursor + 1 }

/-- Modelled from the spec: the class `AsyncTask<T>` (its header is not among
the sources). The model keeps the value the computation produces, which is
what `get()` returns, and the progress value. Whether the computation has
already finished (`ready()`) depends on the background thread and is an input
of `checkAsyncResult` below. -/
structure AsyncTask (R : Type) where
  result : R
  m_progress : ℚ
deriving DecidableEq

/-- Modelled from the spec: `AsyncTask::get`. "Blocks the caller until
completion, then returns the stored result; safe to call multiple times,
always returns the same value." -/
def AsyncTask.get {R : Type} (t : AsyncTask R) : R := t.result

/-- Modelled from the spec: `AsyncTask::setProgress`. -/
def AsyncTask.setProgress {R : Type} (t : AsyncTask R) (v : ℚ) : AsyncTask R :=
  { t with m_progress := v }

/-- Modelled from the spec: `AsyncTask::progress`, a read of the latest
reported value. -/
def AsyncTask.progress {R : Type} (t : AsyncTask R) : ℚ := t.m_progress

/-- Modelled from the spec: construction of an `AsyncTask` followed by
`compute()`. The task will produce `r`; progress is "default 0 before first
report". -/
def AsyncTask.launch {R : Type} (r : R) : AsyncTask R :=
  { result := r, m_progress := 0 }

/-- The texture loader `LazyGLTextureLoader` as seen by `GLImage`: `setDirty`
and `uploadToGPU`. The upload talks to OpenGL and to a timer, so its answer
and its next state are left arbitrary: `uploadToGPU tex img` is the pair of
the returned `bool` (upload complete) and the loader afterwards. -/
structure TextureSink (Tex Img : Type) where
  setDirty : Tex → Tex
  uploadToGPU : Tex → Option Img → Bool × Tex

/-! ## `GLImage` -/

/-- The members of `GLImage` that the modelled methods read or write.
`m_imageModifyDoneCallback` records whether a callback is installed (the
`std::function` is non-empty); `modifyDoneCalls` counts its invocations. -/
structure GLImage (Img Rec Tex : Type) where
  m_image : Option Img
  m_history : CommandHistory Rec
  m_asyncCommand : Option (AsyncTask (ImageCommandResult Img Rec))
  m_asyncRetrieved : Bool
  m_histogramDirty : Bool
  m_texture : Tex
  m_imageModifyDoneCallback : Bool
  modifyDoneCalls : Nat

section GLImageMethods

variable {Img Rec Tex : Type}

/-- The method `GLImage::canModify`: `return !m_asyncCommand;` -/
def GLImage.canModify (s : GLImage Img Rec Tex) : Bool :=
  s.m_asyncCommand.isNone

/-- The method `GLImage::modifyFinished`: drop the task, then invoke the callback if one
is installed. -/
def GLImage.modifyFinished (s : GLImage Img Rec Tex) : GLImage Img Rec Tex :=
  { s with
    m_asyncCommand := none
    modifyDoneCalls :=
      if s.m_imageModifyDoneCallback then s.modifyDoneCalls + 1 else s.modifyDoneCalls }

/-- The method `GLImage::uploadToGPU`: hand the image to the texture loader; when the
loader reports the upload complete, destroy the task. -/
def GLImage.uploadToGPU (sink : TextureSink Tex Img) (s : GLImage Img Rec Tex) :
    GLImage Img Rec Tex :=
  let r := sink.uploadToGPU s.m_texture s.m_image
  let s1 := { s with m_texture := r.2 }
  if r.1 then s1.modifyFinished else s1

/-- The assignments of `GLImage::waitForAsyncResult` inside
`if (!m_asyncRetrieved)` up to `m_texture.setDirty()`: the result is copied
out of the task into the image slot and the history. -/
def GLImage.retrieve (sink : TextureSink Tex Img) (s : GLImage Img Rec Tex)
    (result : ImageCommandResult Img Rec) : GLImage Img Rec Tex :=
  let s1 : GLImage Img Rec Tex :=
    match result.2 with
    | none =>
      -- if there is no undo, treat this as an image load
      match result.1 with
      | some img => { s with m_history := CommandHistory.fresh, m_image := some img }
      | none => s
    | some undo =>
      { s with m_history := s.m_history.addCommand undo, m_image := result.1 }
  { s1 with
    m_asyncRetrieved := true
    m_histogramDirty := true
    m_texture := sink.setDirty s1.m_texture }

/-- The tail of `GLImage::waitForAsyncResult`: set the progress bar to busy,
upload, `return true`. -/
def GLImage.busyUpload (sink : TextureSink Tex Img) (s : GLImage Img Rec Tex) :
    Bool × GLImage Img Rec Tex :=
  let s1 := { s with m_asyncCommand := s.m_asyncCommand.map (AsyncTask.setProgress · (-1)) }
  (true, s1.uploadToGPU sink)

/-- The method `GLImage::waitForAsyncResult`. The returned pair is the `bool` result and
the object afterwards. -/
def GLImage.waitForAsyncResult (sink : TextureSink Tex Img) (s : GLImage Img Rec Tex) :
    Bool × GLImage Img Rec Tex :=
  match s.m_asyncCommand with
  | none => (false, s)
  | some t =>
    if !s.m_asyncRetrieved then
      let result := t.get
      let s1 := s.retrieve sink result
      if result.1.isNone then
        -- image loading failed
        (false, s1.modifyFinished)
      else
        s1.busyUpload sink
    else
      s.busyUpload sink

/-- The method `GLImage::checkAsyncResult`. The input `ready` is the answer of
`m_asyncCommand->ready()` at the moment of the call (it is only consulted when
a task is present). -/
def GLImage.checkAsyncResult (sink : TextureSink Tex Img) (ready : Bool)
    (s : GLImage Img Rec Tex) : Bool × GLImage Img Rec Tex :=
  if s.m_asyncCommand.isNone || !ready then (false, s)
  else s.waitForAsyncResult sink

/-- The method `GLImage::asyncModify(const ImageCommand &)`: drain any pending edit,
create the task for `command` and start it. The task runs
`command(m_image)`; the slot is not written while the task is live and not
retrieved, so the task produces `command` applied to the slot as it is at
launch. -/
def GLImage.asyncModify (sink : TextureSink Tex Img)
    (command : Option Img → ImageCommandResult Img Rec) (s : GLImage Img Rec Tex) :
    GLImage Img Rec Tex :=
  let s1 := (s.waitForAsyncResult sink).2
  { s1 with
    m_asyncCommand := some (AsyncTask.launch (command s1.m_image))
    m_asyncRetrieved := false }

/-- The method `GLImage::progress`: `checkAsyncResult()`, then the task's progress, or
`1.0f` when there is no task. -/
def GLImage.progress (sink : TextureSink Tex Img) (ready : Bool)
    (s : GLImage Img Rec Tex) : ℚ × GLImage Img Rec Tex :=
  let s1 := (s.checkAsyncResult sink ready).2
  (match s1.m_asyncCommand with
   | some t => t.progress
   | none => 1, s1)

/-- One call of the completion accessors: `checkAsyncResult` together with the
answer of `ready()` it gets, or `waitForAsyncResult`. -/
inductive DrainCall where
  | check (ready : Bool)
  | wait
deriving DecidableEq, Repr

/-- Run one call, keeping the object afterwards. -/
def DrainCall.run (sink : TextureSink Tex Img) (c : DrainCall) (s : GLImage Img Rec Tex) :
    GLImage Img Rec Tex :=
  match c with
  | .check ready => (s.checkAsyncResult sink ready).2
  | .wait => (s.waitForAsyncResult sink).2

/-- A call reaches the task unless it is a `checkAsyncResult` that finds the
task still computing. -/
def DrainCall.reaches : DrainCall → Bool
  | .check ready => ready
  | .wait => true

/-- Consecutive calls, first to last. -/
def GLImage.runCalls (sink : TextureSink Tex Img) (calls : List DrainCall)
    (s : GLImage Img Rec Tex) : GLImage Img Rec Tex :=
  calls.foldl (fun acc c => c.run sink acc) s

end GLImageMethods

/-! ## `HDRImageManager` -/

/-- An invocation of one of the manager's callbacks. The manager calls them
without testing whether they are set, so they are taken to be installed. -/
inductive Notification where
  /-- The call `m_currentImageCallback()`. -/
  | currentImage
  /-- The call `m_numImagesCallback()`. -/
  | numImages
  /-- The call `m_referenceImageCallback()`. -/
  | referenceImage
  /-- The call `m_imageModifyDoneCallback(index)`. -/
  | imageModifyDone (index : Int)
deriving DecidableEq, Repr

/-- What `runRequestedCallbacks` asks of an entity `shared_ptr<GLImage>`:
`canModify()` and `isNull()`. -/
structure EntityView (E : Type) where
  canModify : E → Bool
  isNull : E → Bool

/-- The members of `HDRImageManager`. `m_images` is the
`vector<shared_ptr<GLImage>>`; `notifications` lists the callback invocations
made so far, oldest first. -/
structure HDRImageManager (E : Type) where
  m_images : List (Option E)
  m_current : Int
  m_reference : Int
  m_imageModifyDoneRequested : Bool
  notifications : List Notification
deriving DecidableEq, Repr

/-- An index is valid when it is `-1` ("none") or denotes a position of a
collection of `n` images. -/
def validIndex (i : Int) (n : Nat) : Prop := i = -1 ∨ (0 ≤ i ∧ i < (n : Int))

instance (i : Int) (n : Nat) : Decidable (validIndex i n) := by
  unfold validIndex; exact inferInstance

/-- The element access `v[i]` of a `vector` with an `int` index: `none` when
the access is out of bounds. -/
def elemAt {α : Type} (v : List α) (i : Int) : Option α :=
  if i < 0 then none else v[i.toNat]?

/-- The call `swap(v[i], v[j])`: `none` when one of the two accesses is out of
bounds (undefined behaviour in the source). -/
def swapAt {α : Type} (v : List α) (i j : Int) : Option (List α) :=
  match elemAt v i, elemAt v j with
  | some a, some b => some ((v.set i.toNat b).set j.toNat a)
  | _, _ => none

section ManagerMethods

variable {E : Type}

/-- Append one callback invocation to the record. -/
def HDRImageManager.notify (m : HDRImageManager E) (n : Notification) : HDRImageManager E :=
  { m with notifications := m.notifications ++ [n] }

/-- The method `HDRImageManager::image`: the entity at `index`, or `nullptr` when `index`
is out of range. -/
def HDRImageManager.image (m : HDRImageManager E) (index : Int) : Option E :=
  if index < 0 ∨ index ≥ (m.m_images.length : Int) then none
  else (m.m_images[index.toNat]?).join

/-- The method `HDRImageManager::setCurrentImageIndex`: store `index` if it
differs from the current index, and call the callback if it did or if
`forceCallback` is set. -/
def HDRImageManager.setCurrentImageIndex (index : Int) (forceCallback : Bool)
    (m : HDRImageManager E) : HDRImageManager E :=
  let m1 := if index ≠ m.m_current then { m with m_current := index } else m
  let force := if index ≠ m.m_current then true else forceCallback
  if force then m1.notify .currentImage else m1

/-- The method `HDRImageManager::setReferenceImageIndex`: store `index` and
call the callback, if `index` differs from the reference index or
`forceCallback` is set. -/
def HDRImageManager.setReferenceImageIndex (index : Int) (forceCallback : Bool)
    (m : HDRImageManager E) : HDRImageManager E :=
  if forceCallback ∨ index ≠ m.m_reference then
    ({ m with m_reference := index }).notify .referenceImage
  else m

/-- The index adjustment made after erasing position `index` from a collection
that then has `size` images: `if (index < current) current--; else if
(current >= size) current = size - 1;`. -/
def adjustIndex (index current : Int) (size : Nat) : Int :=
  if index < current then current - 1
  else if current ≥ (size : Int) then (size : Int) - 1
  else current

/-- The method `HDRImageManager::closeImage`: when `image(index)` is an image,
erase it, adjust the current index, and call the callbacks. -/
def HDRImageManager.closeImage (index : Int) (m : HDRImageManager E) : HDRImageManager E :=
  match m.image index with
  | none => m
  | some _ =>
    let images := m.m_images.eraseIdx index.toNat
    let newIndex := adjustIndex index m.m_current images.length
    (({ m with m_images := images }).setCurrentImageIndex newIndex true).notify .numImages

/-- The method `HDRImageManager::closeAllImages`. -/
def HDRImageManager.closeAllImages (m : HDRImageManager E) : HDRImageManager E :=
  (({ m with m_images := [], m_current := -1, m_reference := -1 }).notify .currentImage).notify
    .numImages

/-- The test `img && img->canModify() && img->isNull()` of
`runRequestedCallbacks`. -/
def EntityView.prunes (view : EntityView E) (img : Option E) : Bool :=
  match img with
  | some g => view.canModify g && view.isNull g
  | none => false

/-- The `for` loop of `HDRImageManager::runRequestedCallbacks`, from loop
counter `i` on; the `Bool` is `numImagesChanged`. Every iteration increments
`i` and no iteration lengthens the list, so `m_images.size() - i` decreases
and the loop ends. -/
def HDRImageManager.pruneLoop (view : EntityView E) (i : Nat) (m : HDRImageManager E)
    (numImagesChanged : Bool) : HDRImageManager E × Bool :=
  if h : i < m.m_images.length then
    if view.prunes (m.m_images[i]?).join then
      HDRImageManager.pruneLoop view (i + 1)
        { m with
          m_images := m.m_images.eraseIdx i
          m_current := adjustIndex (i : Int) m.m_current (m.m_images.eraseIdx i).length }
        true
    else
      HDRImageManager.pruneLoop view (i + 1) m numImagesChanged
  else (m, numImagesChanged)
termination_by m.m_images.length - i
decreasing_by
  all_goals simp_wf
  · rw [List.length_eraseIdx]; simp only [h, if_true]; omega
  · omega

/-- The method `HDRImageManager::runRequestedCallbacks`: the pruning loop, the
callbacks if an image was removed, and the requested "modify done" callback. -/
def HDRImageManager.runRequestedCallbacks (view : EntityView E) (m : HDRImageManager E) :
    HDRImageManager E :=
  let r := HDRImageManager.pruneLoop view 0 m false
  let m1 := if r.2 then (r.1.notify .currentImage).notify .numImages else r.1
  if m1.m_imageModifyDoneRequested then
    ({ m1 with m_imageModifyDoneRequested := false }).notify (.imageModifyDone m1.m_current)
  else m1

/-- The method `HDRImageManager::bringImageForward`; `none` when the swap accesses an
element outside the image list. -/
def HDRImageManager.bringImageForward (m : HDRImageManager E) : Option (HDRImageManager E) :=
  if m.m_images.isEmpty ∨ m.m_current = 0 then some m
  else
    match swapAt m.m_images m.m_current (m.m_current - 1) with
    | none => none
    | some images =>
      some ((({ m with m_images := images, m_current := m.m_current - 1 }).notify
        (.imageModifyDone (m.m_current - 1))).notify .currentImage)

/-- The method `HDRImageManager::sendImageBackward`; `none` when the swap accesses an
element outside the image list. -/
def HDRImageManager.sendImageBackward (m : HDRImageManager E) : Option (HDRImageManager E) :=
  if m.m_images.isEmpty ∨ m.m_current = (m.m_images.length : Int) - 1 then some m
  else
    match swapAt m.m_images m.m_current (m.m_current + 1) with
    | none => none
    | some images =>
      some ((({ m with m_images := images, m_current := m.m_current + 1 }).notify
        (.imageModifyDone (m.m_current + 1))).notify .currentImage)

end ManagerMethods

/-- The command that `HDRImageManager::modifyImage` hands to `asyncModify`: run
`command` and, "if no undo was provided, just create a FullImageUndo" of the
image it was given (`fullImageUndo`). The flag `m_imageModifyDoneRequested`
that the command also raises belongs to the manager and is left out here. -/
def modifyImageCommand {Img Rec : Type} (fullImageUndo : Option Img → Rec)
    (command : Option Img → ImageCommandResult Img Rec) :
    Option Img → ImageCommandResult Img Rec :=
  fun img =>
    let ret := command img
    if ret.2.isNone then (ret.1, some (fullImageUndo img)) else ret

/-- Modelled from the spec: `GLImage::isNull` (declared in the header, which is
not among the sources). The entity's "image became null": the slot holds no
image, or an image without pixels (`imageIsNull`). -/
def GLImage.isNull {Img Rec Tex : Type} (imageIsNull : Img → Bool) (s : GLImage Img Rec Tex) :
    Bool :=
  match s.m_image with
  | none => true
  | some img => imageIsNull img

/-- The view of a `GLImage` that the manager uses. -/
def GLImage.view {Img Rec Tex : Type} (imageIsNull : Img → Bool) :
    EntityView (GLImage Img Rec Tex) :=
  { canModify := GLImage.canModify, isNull := GLImage.isNull imageIsNull }

/-! ## Sample objects

Concrete objects on which the definitions are evaluated. An image is the
number of its pixels (`0` is the empty image), an undo record is the image it
restores, and the texture loader is the number of upload calls it still needs.
-/

namespace Sample

/-- A texture loader that needs two upload calls after `setDirty`. -/
def sink : TextureSink Nat Nat :=
  { setDirty := fun _ => 2
    uploadToGPU := fun tex _ =>
      match tex with
      | 0 => (false, 0)
      | 1 => (true, 0)
      | k + 2 => (false, k + 1) }

/-- An entity without a task that holds the image `img`. -/
def idle (img : Nat) : GLImage Nat Nat Nat :=
  { m_image := some img
    m_history := CommandHistory.fresh
    m_asyncCommand := none
    m_asyncRetrieved := true
    m_histogramDirty := false
    m_texture := 0
    m_imageModifyDoneCallback := true
    modifyDoneCalls := 0 }

/-- An entity holding the image `img` with a live task, not yet retrieved,
that produces `result`. -/
def pending (img : Nat) (result : ImageCommandResult Nat Nat) : GLImage Nat Nat Nat :=
  { m_image := some img
    m_history := CommandHistory.fresh
    m_asyncCommand := some (AsyncTask.launch result)
    m_asyncRetrieved := false
    m_histogramDirty := false
    m_texture := 0
    m_imageModifyDoneCallback := true
    modifyDoneCalls := 0 }

/-- The view of the sample entities: the empty image is the one with no
pixels. -/
def view : EntityView (GLImage Nat Nat Nat) := GLImage.view (fun img => img == 0)

/-- A collection of sample entities that has made no callback yet. -/
def collection (images : List (GLImage Nat Nat Nat)) (current reference : Int) :
    HDRImageManager (GLImage Nat Nat Nat) :=
  { m_images := images.map some
    m_current := current
    m_reference := reference
    m_imageModifyDoneRequested := false
    notifications := [] }

/-- An edit command that fails: it returns neither an image nor an undo
record. -/
def failingCommand : Option Nat → ImageCommandResult Nat Nat := fun _ => (none, none)

/-- The undo record that restores the whole image `img`. -/
def fullImageUndo : Option Nat → Nat := fun img => img.getD 0

end Sample

/-! ## Lemmas on the drain protocol -/

section GLImageLemmas

variable {Img Rec Tex : Type}

theorem GLImage.uploadToGPU_fields (sink : TextureSink Tex Img) (s : GLImage Img Rec Tex) :
    (s.uploadToGPU sink).m_image = s.m_image ∧
    (s.uploadToGPU sink).m_history = s.m_history ∧
    (s.uploadToGPU sink).m_asyncRetrieved = s.m_asyncRetrieved := by
  unfold GLImage.uploadToGPU
  by_cases h : (sink.uploadToGPU s.m_texture s.m_image).1 = true <;>
    simp [h, GLImage.modifyFinished]

theorem GLImage.busyUpload_fields (sink : TextureSink Tex Img) (s : GLImage Img Rec Tex) :
    (s.busyUpload sink).2.m_image = s.m_image ∧
    (s.busyUpload sink).2.m_history = s.m_history ∧
    (s.busyUpload sink).2.m_asyncRetrieved = s.m_asyncRetrieved := by
  unfold GLImage.busyUpload
  exact GLImage.uploadToGPU_fields sink _

/-- With no task, `waitForAsyncResult` returns at once. -/
theorem GLImage.waitForAsyncResult_idle (sink : TextureSink Tex Img) (s : GLImage Img Rec Tex)
    (h : s.m_asyncCommand = none) : s.waitForAsyncResult sink = (false, s) := by
  simp [GLImage.waitForAsyncResult, h]

/-- With a task that was already retrieved, `waitForAsyncResult` only uploads. -/
theorem GLImage.waitForAsyncResult_retrieved (sink : TextureSink Tex Img)
    (s : GLImage Img Rec Tex) (t : AsyncTask (ImageCommandResult Img Rec))
    (h : s.m_asyncCommand = some t) (hr : s.m_asyncRetrieved = true) :
    s.waitForAsyncResult sink = s.busyUpload sink := by
  simp [GLImage.waitForAsyncResult, h, hr]

/-- With a live task that was not yet retrieved and whose result carries an
image, `waitForAsyncResult` retrieves and then uploads. -/
theorem GLImage.waitForAsyncResult_success (sink : TextureSink Tex Img)
    (s : GLImage Img Rec Tex) (t : AsyncTask (ImageCommandResult Img Rec))
    (img : Img) (undo : Option Rec)
    (h : s.m_asyncCommand = some t) (hr : s.m_asyncRetrieved = false)
    (hres : t.result = (some img, undo)) :
    s.waitForAsyncResult sink = (s.retrieve sink (some img, undo)).busyUpload sink := by
  simp [GLImage.waitForAsyncResult, h, hr, AsyncTask.get, hres]

/-- With a live task that was not yet retrieved and whose result carries no
image, `waitForAsyncResult` retrieves and finishes without uploading. -/
theorem GLImage.waitForAsyncResult_failure (sink : TextureSink Tex Img)
    (s : GLImage Img Rec Tex) (t : AsyncTask (ImageCommandResult Img Rec))
    (undo : Option Rec)
    (h : s.m_asyncCommand = some t) (hr : s.m_asyncRetrieved = false)
    (hres : t.result = (none, undo)) :
    s.waitForAsyncResult sink = (false, (s.retrieve sink (none, undo)).modifyFinished) := by
  simp [GLImage.waitForAsyncResult, h, hr, AsyncTask.get, hres]

/-- What a successful retrieval leaves in the image slot and the history. -/
theorem GLImage.waitForAsyncResult_success_fields (sink : TextureSink Tex Img)
    (s : GLImage Img Rec Tex) (t : AsyncTask (ImageCommandResult Img Rec))
    (img : Img) (undo : Option Rec)
    (h : s.m_asyncCommand = some t) (hr : s.m_asyncRetrieved = false)
    (hres : t.result = (some img, undo)) :
    (s.waitForAsyncResult sink).2.m_image = some img ∧
    (undo = none → (s.waitForAsyncResult sink).2.m_history = CommandHistory.fresh) ∧
    (∀ r : Rec, undo = some r →
      (s.waitForAsyncResult sink).2.m_history = s.m_history.addCommand r) := by
  have hw := GLImage.waitForAsyncResult_success sink s t img undo h hr hres
  have hb := GLImage.busyUpload_fields sink (s.retrieve sink (some img, undo))
  rw [hw, hb.1, hb.2.1]
  refine ⟨?_, ?_, ?_⟩
  · cases undo <;> rfl
  · intro hu; subst hu; rfl
  · intro r hu; subst hu; rfl

/-- A failed load (neither image nor undo record) leaves image slot and history
as they are, clears the task, and invokes the installed callback once. -/
theorem GLImage.waitForAsyncResult_failed_load (sink : TextureSink Tex Img)
    (s : GLImage Img Rec Tex) (t : AsyncTask (ImageCommandResult Img Rec))
    (h : s.m_asyncCommand = some t) (hr : s.m_asyncRetrieved = false)
    (hres : t.result = (none, none)) (hcb : s.m_imageModifyDoneCallback = true) :
    (s.waitForAsyncResult sink).2.m_image = s.m_image ∧
    (s.waitForAsyncResult sink).2.m_history = s.m_history ∧
    (s.waitForAsyncResult sink).2.m_asyncCommand = none ∧
    (s.waitForAsyncResult sink).2.modifyDoneCalls = s.modifyDoneCalls + 1 := by
  rw [GLImage.waitForAsyncResult_failure sink s t none h hr hres]
  simp [GLImage.modifyFinished, GLImage.retrieve, hcb]

/-- After `waitForAsyncResult` the object holds no task or a retrieved one. -/
theorem GLImage.waitForAsyncResult_settled (sink : TextureSink Tex Img)
    (s : GLImage Img Rec Tex) :
    (s.waitForAsyncResult sink).2.m_asyncCommand = none ∨
      (s.waitForAsyncResult sink).2.m_asyncRetrieved = true := by
  cases h : s.m_asyncCommand with
  | none => left; rw [GLImage.waitForAsyncResult_idle sink s h]; exact h
  | some t =>
    cases hr : s.m_asyncRetrieved with
    | true =>
      right
      rw [GLImage.waitForAsyncResult_retrieved sink s t h hr, (GLImage.busyUpload_fields sink s).2.2]
      exact hr
    | false =>
      rcases hres : t.result with ⟨oimg, undo⟩
      cases oimg with
      | none =>
        left
        rw [GLImage.waitForAsyncResult_failure sink s t undo h hr hres]
        rfl
      | some img =>
        right
        rw [GLImage.waitForAsyncResult_success sink s t img undo h hr hres,
          (GLImage.busyUpload_fields sink _).2.2]
        rfl

/-- On an object with no task or a retrieved one, `waitForAsyncResult` leaves
the image slot and the history alone. -/
theorem GLImage.waitForAsyncResult_of_settled (sink : TextureSink Tex Img)
    (s : GLImage Img Rec Tex)
    (hs : s.m_asyncCommand = none ∨ s.m_asyncRetrieved = true) :
    (s.waitForAsyncResult sink).2.m_image = s.m_image ∧
    (s.waitForAsyncResult sink).2.m_history = s.m_history := by
  cases h : s.m_asyncCommand with
  | none => rw [GLImage.waitForAsyncResult_idle sink s h]; exact ⟨rfl, rfl⟩
  | some t =>
    have hr : s.m_asyncRetrieved = true := by
      rcases hs with hs | hs
      · rw [h] at hs; cases hs
      · exact hs
    rw [GLImage.waitForAsyncResult_retrieved sink s t h hr]
    exact ⟨(GLImage.busyUpload_fields sink s).1, (GLImage.busyUpload_fields sink s).2.1⟩

/-- A call is `waitForAsyncResult` or changes nothing. -/
theorem DrainCall.run_eq (sink : TextureSink Tex Img) (c : DrainCall)
    (s : GLImage Img Rec Tex) :
    c.run sink s = (s.waitForAsyncResult sink).2 ∨ c.run sink s = s := by
  cases c with
  | wait => left; rfl
  | check ready =>
    cases ready with
    | false => right; simp [DrainCall.run, GLImage.checkAsyncResult]
    | true =>
      cases h : s.m_asyncCommand with
      | none => right; simp [DrainCall.run, GLImage.checkAsyncResult, h]
      | some t => left; simp [DrainCall.run, GLImage.checkAsyncResult, h]

/-- A call that reaches the task is `waitForAsyncResult`. -/
theorem DrainCall.run_of_reaches (sink : TextureSink Tex Img) (c : DrainCall)
    (s : GLImage Img Rec Tex) (hc : c.reaches = true) :
    c.run sink s = (s.waitForAsyncResult sink).2 := by
  cases c with
  | wait => rfl
  | check ready =>
    have hready : ready = true := hc
    subst hready
    cases h : s.m_asyncCommand with
    | none =>
      simp [DrainCall.run, GLImage.checkAsyncResult, h, GLImage.waitForAsyncResult_idle sink s h]
    | some t => simp [DrainCall.run, GLImage.checkAsyncResult, h]

/-- A call that does not reach the task changes nothing. -/
theorem DrainCall.run_of_not_reaches (sink : TextureSink Tex Img) (c : DrainCall)
    (s : GLImage Img Rec Tex) (hc : c.reaches = false) : c.run sink s = s := by
  cases c with
  | wait => cases hc
  | check ready =>
    have hready : ready = false := hc
    subst hready
    simp [DrainCall.run, GLImage.checkAsyncResult]

/-- Once the object holds no task or a retrieved one, further calls leave the
image slot and the history alone. -/
theorem GLImage.runCalls_of_settled (sink : TextureSink Tex Img) (calls : List DrainCall) :
    ∀ s : GLImage Img Rec Tex,
      (s.m_asyncCommand = none ∨ s.m_asyncRetrieved = true) →
      (s.runCalls sink calls).m_image = s.m_image ∧
      (s.runCalls sink calls).m_history = s.m_history := by
  induction calls with
  | nil => intro s _; exact ⟨rfl, rfl⟩
  | cons c rest ih =>
    intro s hs
    have hstep : c.run sink s = (s.waitForAsyncResult sink).2 ∨ c.run sink s = s :=
      DrainCall.run_eq sink c s
    have hunfold : s.runCalls sink (c :: rest) = (c.run sink s).runCalls sink rest := rfl
    rw [hunfold]
    rcases hstep with hstep | hstep
    · rw [hstep]
      have h1 := ih _ (GLImage.waitForAsyncResult_settled sink s)
      have h2 := GLImage.waitForAsyncResult_of_settled sink s hs
      exact ⟨h1.1.trans h2.1, h1.2.trans h2.2⟩
    · rw [hstep]; exact ih s hs

/-- Any sequence of calls of which one reaches the task leaves the image slot
and the history as one `waitForAsyncResult` does. -/
theorem GLImage.runCalls_eq_single (sink : TextureSink Tex Img) (calls : List DrainCall) :
    ∀ s : GLImage Img Rec Tex, calls.any DrainCall.reaches = true →
      (s.runCalls sink calls).m_image = (s.waitForAsyncResult sink).2.m_image ∧
      (s.runCalls sink calls).m_history = (s.waitForAsyncResult sink).2.m_history := by
  induction calls with
  | nil => intro s h; simp at h
  | cons c rest ih =>
    intro s hany
    have hunfold : s.runCalls sink (c :: rest) = (c.run sink s).runCalls sink rest := rfl
    rw [hunfold]
    cases hc : c.reaches with
    | true =>
      rw [DrainCall.run_of_reaches sink c s hc]
      exact GLImage.runCalls_of_settled sink rest _ (GLImage.waitForAsyncResult_settled sink s)
    | false =>
      rw [DrainCall.run_of_not_reaches sink c s hc]
      apply ih s
      simpa [hc] using hany

end GLImageLemmas

/-! ## The drain protocol of `GLImage` -/

section GLImageTheorems

variable {Img Rec Tex : Type}

/-- C1 (exactly-once drain). Take an object with a live task whose result
carries an image and an undo record, any texture loader, and any sequence of
`checkAsyncResult` / `waitForAsyncResult` calls of which at least one reaches
the task (a `checkAsyncResult` that finds the task still computing returns at
once; when the task has finished every call reaches it, so any sequence of
`n ≥ 1` calls qualifies). Then image slot and history are the same as after a
single `waitForAsyncResult`; if the task was not yet retrieved, the image slot
is the task's image and the history is the previous one with `addCommand`
applied once (the cursor moved by exactly one); if it was already retrieved,
nothing is applied again. -/
theorem drain_exactly_once (sink : TextureSink Tex Img) (s : GLImage Img Rec Tex)
    (t : AsyncTask (ImageCommandResult Img Rec)) (img : Img) (undo : Rec)
    (calls : List DrainCall)
    (hlive : s.m_asyncCommand = some t) (hres : t.result = (some img, some undo))
    (hreach : calls.any DrainCall.reaches = true) :
    (s.runCalls sink calls).m_image = (s.waitForAsyncResult sink).2.m_image ∧
    (s.runCalls sink calls).m_history = (s.waitForAsyncResult sink).2.m_history ∧
    (s.m_asyncRetrieved = false →
      (s.runCalls sink calls).m_image = some img ∧
      (s.runCalls sink calls).m_history = s.m_history.addCommand undo ∧
      (s.runCalls sink calls).m_history.cursor = s.m_history.cursor + 1) ∧
    (s.m_asyncRetrieved = true →
      (s.runCalls sink calls).m_image = s.m_image ∧
      (s.runCalls sink calls).m_history = s.m_history) := by
  have hsingle := GLImage.runCalls_eq_single sink calls s hreach
  refine ⟨hsingle.1, hsingle.2, ?_, ?_⟩
  · intro hr
    have hw := GLImage.waitForAsyncResult_success sink s t img (some undo) hlive hr hres
    have hb := GLImage.busyUpload_fields sink (s.retrieve sink (some img, some undo))
    rw [hsingle.1, hsingle.2, hw, hb.1, hb.2.1]
    exact ⟨rfl, rfl, rfl⟩
  · intro hr
    have hw := GLImage.waitForAsyncResult_of_settled sink s (Or.inr hr)
    rw [hsingle.1, hsingle.2]
    exact hw

/-- Witness of C1: four calls on a pending edit of the sample entity. -/
theorem drain_exactly_once_witness :
    ((Sample.pending 4 (some 5, some 4)).runCalls Sample.sink
        [.check false, .wait, .check true, .wait]).m_image = some 5 ∧
    ((Sample.pending 4 (some 5, some 4)).runCalls Sample.sink
        [.check false, .wait, .check true, .wait]).m_history =
      (CommandHistory.fresh : CommandHistory Nat).addCommand 4 :=
  have h := (drain_exactly_once Sample.sink (Sample.pending 4 (some 5, some 4))
    (AsyncTask.launch (some 5, some 4)) 5 4 [.check false, .wait, .check true, .wait]
    rfl rfl rfl).2.2.1 rfl
  ⟨h.1, h.2.1⟩

/-- C2 (failed result leaves state intact), evaluated where the code departs
from it. The sample entity holds image `4` and an empty history, and its live
task, created by `asyncModify` for the command that `modifyImage` builds from
a failing command, produces no image but the default undo record. After
`waitForAsyncResult` the image slot is the null pointer and the record has
been committed to the history; the task is cleared and the callback has run
once. -/
theorem failed_edit_is_committed :
    (Sample.idle 4).asyncModify Sample.sink
        (modifyImageCommand Sample.fullImageUndo Sample.failingCommand) =
      Sample.pending 4 (none, some 4) ∧
    ((Sample.pending 4 (none, some 4)).waitForAsyncResult Sample.sink).2.m_image = none ∧
    ((Sample.pending 4 (none, some 4)).waitForAsyncResult Sample.sink).2.m_history =
      { records := [4], cursor := 1, savedMarker := 0 } ∧
    (Sample.pending 4 (none, some 4)).m_image = some 4 ∧
    (Sample.pending 4 (none, some 4)).m_history =
      { records := [], cursor := 0, savedMarker := 0 } ∧
    ((Sample.pending 4 (none, some 4)).waitForAsyncResult Sample.sink).2.m_asyncCommand = none ∧
    ((Sample.pending 4 (none, some 4)).waitForAsyncResult Sample.sink).2.modifyDoneCalls = 1 :=
  ⟨rfl, rfl, rfl, rfl, rfl, rfl, rfl⟩

/-- C3 (drain policy on success). For a live task, not yet retrieved, whose
result carries an image, `waitForAsyncResult` sets the image slot to that
image; without an undo record the history becomes a freshly constructed
`CommandHistory`; with an undo record the history is the previous one with
`addCommand(record)` applied, which is not the fresh history. -/
theorem drain_policy_on_success (sink : TextureSink Tex Img) (s : GLImage Img Rec Tex)
    (t : AsyncTask (ImageCommandResult Img Rec)) (img : Img) (undo : Option Rec)
    (hlive : s.m_asyncCommand = some t) (hr : s.m_asyncRetrieved = false)
    (hres : t.result = (some img, undo)) :
    (s.waitForAsyncResult sink).2.m_image = some img ∧
    (undo = none → (s.waitForAsyncResult sink).2.m_history = CommandHistory.fresh) ∧
    (∀ r : Rec, undo = some r →
      (s.waitForAsyncResult sink).2.m_history = s.m_history.addCommand r ∧
      (s.waitForAsyncResult sink).2.m_history ≠ CommandHistory.fresh) := by
  have hf := GLImage.waitForAsyncResult_success_fields sink s t img undo hlive hr hres
  refine ⟨hf.1, hf.2.1, ?_⟩
  intro r hu
  refine ⟨hf.2.2 r hu, ?_⟩
  rw [hf.2.2 r hu]
  intro hfresh
  have hc : (s.m_history.addCommand r).cursor = 0 := congrArg CommandHistory.cursor hfresh
  simp [CommandHistory.addCommand] at hc

/-- Witness of C3: a load (no undo record) on the sample entity. -/
theorem drain_policy_on_success_witness :
    ((Sample.pending 0 (some 7, none)).waitForAsyncResult Sample.sink).2.m_image = some 7 ∧
    ((Sample.pending 0 (some 7, none)).waitForAsyncResult Sample.sink).2.m_history =
      CommandHistory.fresh :=
  have h := drain_policy_on_success Sample.sink (Sample.pending 0 (some 7, none))
    (AsyncTask.launch (some 7, none)) 7 none rfl rfl rfl
  ⟨h.1, h.2.1 rfl⟩

/-- C4 (serialization of edits). `asyncModify(c2)` first drains: image slot and
history are those `waitForAsyncResult` leaves, the one task held afterwards is
the task for `c2`, it computes `c2` on the drained image slot, and the
retrieved flag is false. When the previous task was live and not yet
retrieved and its result carries the image `img1`, then `c2` is computed on
`img1`, the image slot is `img1`, and the history is the fresh one (no undo
record) or the previous one with the record added. -/
theorem asyncModify_serializes (sink : TextureSink Tex Img) (s : GLImage Img Rec Tex)
    (t1 : AsyncTask (ImageCommandResult Img Rec))
    (c2 : Option Img → ImageCommandResult Img Rec)
    (hlive : s.m_asyncCommand = some t1) (hr : s.m_asyncRetrieved = false) :
    (s.asyncModify sink c2).m_asyncCommand =
      some (AsyncTask.launch (c2 (s.waitForAsyncResult sink).2.m_image)) ∧
    (s.asyncModify sink c2).m_asyncRetrieved = false ∧
    (s.asyncModify sink c2).m_image = (s.waitForAsyncResult sink).2.m_image ∧
    (s.asyncModify sink c2).m_history = (s.waitForAsyncResult sink).2.m_history ∧
    (∀ (img1 : Img) (undo : Option Rec), t1.result = (some img1, undo) →
      (s.asyncModify sink c2).m_asyncCommand = some (AsyncTask.launch (c2 (some img1))) ∧
      (s.asyncModify sink c2).m_image = some img1 ∧
      (undo = none → (s.asyncModify sink c2).m_history = CommandHistory.fresh) ∧
      (∀ r : Rec, undo = some r →
        (s.asyncModify sink c2).m_history = s.m_history.addCommand r)) := by
  refine ⟨rfl, rfl, rfl, rfl, ?_⟩
  intro img1 undo hres
  have hf := GLImage.waitForAsyncResult_success_fields sink s t1 img1 undo hlive hr hres
  refine ⟨?_, hf.1, hf.2.1, hf.2.2⟩
  show some (AsyncTask.launch (c2 (s.waitForAsyncResult sink).2.m_image)) = _
  rw [hf.1]

/-- Witness of C4: a second edit issued while the first is pending; the second
command adds one pixel and records the image it was given. -/
theorem asyncModify_serializes_witness :
    ((Sample.pending 4 (some 5, some 4)).asyncModify Sample.sink
        (fun img => (img.map (· + 1), img))).m_asyncCommand =
      some (AsyncTask.launch (some 6, some 5)) ∧
    ((Sample.pending 4 (some 5, some 4)).asyncModify Sample.sink
        (fun img => (img.map (· + 1), img))).m_image = some 5 :=
  have h := (asyncModify_serializes Sample.sink (Sample.pending 4 (some 5, some 4))
    (AsyncTask.launch (some 5, some 4)) (fun img => (img.map (· + 1), img)) rfl rfl).2.2.2.2
    5 (some 4) rfl
  ⟨h.1, h.2.1⟩

end GLImageTheorems

/-! ## Lemmas on the image collection -/

section ManagerLemmas

variable {E : Type}

/-- After erasing a position of a collection of `n + 1` images, the adjusted
index is valid for the `n` images left. -/
theorem adjustIndex_valid (index current : Int) (n : Nat)
    (hcur : validIndex current (n + 1)) (h0 : 0 ≤ index) :
    validIndex (adjustIndex index current n) n := by
  unfold validIndex adjustIndex at *
  push_cast at hcur
  split_ifs <;> omega

theorem HDRImageManager.setCurrentImageIndex_fields (index : Int) (forceCallback : Bool)
    (m : HDRImageManager E) :
    (m.setCurrentImageIndex index forceCallback).m_current = index ∧
    (m.setCurrentImageIndex index forceCallback).m_images = m.m_images ∧
    (m.setCurrentImageIndex index forceCallback).m_reference = m.m_reference := by
  unfold HDRImageManager.setCurrentImageIndex HDRImageManager.notify
  by_cases h : index = m.m_current <;> cases forceCallback <;> simp [h]

/-- The accessor `image(index)` is non-null only for an index inside the list. -/
theorem HDRImageManager.image_isSome_bounds (m : HDRImageManager E) (index : Int)
    (h : (m.image index).isSome = true) : 0 ≤ index ∧ index < (m.m_images.length : Int) := by
  unfold HDRImageManager.image at h
  split_ifs at h with hc
  · simp at h
  · omega

/-- What `closeImage` does on an index that `image` accepts. -/
theorem HDRImageManager.closeImage_of_isSome (m : HDRImageManager E) (index : Int)
    (h : (m.image index).isSome = true) :
    (m.closeImage index).m_images = m.m_images.eraseIdx index.toNat ∧
    (m.closeImage index).m_current =
      adjustIndex index m.m_current (m.m_images.eraseIdx index.toNat).length ∧
    (m.closeImage index).m_reference = m.m_reference := by
  unfold HDRImageManager.closeImage
  cases hi : m.image index with
  | none => rw [hi] at h; simp at h
  | some g =>
    simp only [HDRImageManager.notify]
    exact ⟨(HDRImageManager.setCurrentImageIndex_fields _ _ _).2.1,
      (HDRImageManager.setCurrentImageIndex_fields _ _ _).1,
      (HDRImageManager.setCurrentImageIndex_fields _ _ _).2.2⟩

/-- What `closeImage` does on an index that `image` rejects: nothing. -/
theorem HDRImageManager.closeImage_of_isNone (m : HDRImageManager E) (index : Int)
    (h : m.image index = none) : m.closeImage index = m := by
  unfold HDRImageManager.closeImage
  rw [h]

/-- The length after `closeImage` on an index that `image` accepts. -/
theorem HDRImageManager.closeImage_length (m : HDRImageManager E) (index : Int)
    (h : (m.image index).isSome = true) :
    (m.closeImage index).m_images.length + 1 = m.m_images.length := by
  have hb := m.image_isSome_bounds index h
  rw [(m.closeImage_of_isSome index h).1, List.length_eraseIdx]
  have hlt : index.toNat < m.m_images.length := by omega
  simp only [hlt, if_true]
  omega

/-- The method `closeImage` keeps the current index valid. -/
theorem HDRImageManager.closeImage_valid (m : HDRImageManager E) (index : Int)
    (hvalid : validIndex m.m_current m.m_images.length) :
    validIndex (m.closeImage index).m_current (m.closeImage index).m_images.length := by
  cases hi : m.image index with
  | none => rw [m.closeImage_of_isNone index hi]; exact hvalid
  | some g =>
    have hs : (m.image index).isSome = true := by rw [hi]; rfl
    have hb := m.image_isSome_bounds index hs
    have hlen := m.closeImage_length index hs
    have hf := m.closeImage_of_isSome index hs
    rw [hf.2.1, hf.1]
    rw [hf.1] at hlen
    apply adjustIndex_valid _ _ _ _ hb.1
    rw [hlen]
    exact hvalid

/-- The pruning loop keeps the current index valid. -/
theorem HDRImageManager.pruneLoop_valid (view : EntityView E) (n : Nat) :
    ∀ (i : Nat) (m : HDRImageManager E) (changed : Bool),
      m.m_images.length - i ≤ n →
      validIndex m.m_current m.m_images.length →
      validIndex (HDRImageManager.pruneLoop view i m changed).1.m_current
        (HDRImageManager.pruneLoop view i m changed).1.m_images.length := by
  induction n with
  | zero =>
    intro i m changed hn h
    have hi : ¬ i < m.m_images.length := by omega
    rw [HDRImageManager.pruneLoop]
    simp only [hi, dite_false]
    exact h
  | succ n ih =>
    intro i m changed hn h
    rw [HDRImageManager.pruneLoop]
    by_cases hi : i < m.m_images.length
    · simp only [hi, dite_true]
      by_cases hp : view.prunes (m.m_images[i]?).join = true
      · simp only [hp, if_true]
        have hlen : (m.m_images.eraseIdx i).length + 1 = m.m_images.length := by
          rw [List.length_eraseIdx]; simp only [hi, if_true]; omega
        apply ih
        · show (m.m_images.eraseIdx i).length - (i + 1) ≤ n
          omega
        · apply adjustIndex_valid _ _ _ _ (Int.natCast_nonneg i)
          rw [hlen]
          exact h
      · simp only [hp]
        apply ih _ _ _ _ h
        omega
    · simp only [hi, dite_false]
      exact h

/-- The method `runRequestedCallbacks` leaves the list and the current index
that the pruning loop computes. -/
theorem HDRImageManager.runRequestedCallbacks_fields (view : EntityView E)
    (m : HDRImageManager E) :
    (m.runRequestedCallbacks view).m_images =
      (HDRImageManager.pruneLoop view 0 m false).1.m_images ∧
    (m.runRequestedCallbacks view).m_current =
      (HDRImageManager.pruneLoop view 0 m false).1.m_current := by
  unfold HDRImageManager.runRequestedCallbacks
  simp only [HDRImageManager.notify]
  split_ifs <;> exact ⟨rfl, rfl⟩

/-- Element access with an index that is a natural number. -/
theorem elemAt_natCast {α : Type} (v : List α) (k : Nat) : elemAt v (k : Int) = v[k]? := by
  unfold elemAt
  have h : ¬ ((k : Int) < 0) := by omega
  simp only [h, if_false, Int.toNat_natCast]

/-- A swap of two distinct positions inside the list succeeds, exchanges the
two elements and leaves every other position alone. -/
theorem swapAt_spec {α : Type} (v : List α) (i j : Nat) (hi : i < v.length)
    (hj : j < v.length) (hij : i ≠ j) :
    ∃ w, swapAt v (i : Int) (j : Int) = some w ∧ w.length = v.length ∧
      w[i]? = v[j]? ∧ w[j]? = v[i]? ∧ ∀ k, k ≠ i → k ≠ j → w[k]? = v[k]? := by
  refine ⟨(v.set i v[j]).set j v[i], ?_, ?_, ?_, ?_, ?_⟩
  · unfold swapAt
    rw [elemAt_natCast, elemAt_natCast, List.getElem?_eq_getElem hi,
      List.getElem?_eq_getElem hj]
    simp only [Int.toNat_natCast]
  · simp only [List.length_set]
  · rw [List.getElem?_set_ne (Ne.symm hij), List.getElem?_set_self hi,
      List.getElem?_eq_getElem hj]
  · rw [List.getElem?_set_self (by simpa only [List.length_set] using hj),
      List.getElem?_eq_getElem hi]
  · intro k hki hkj
    rw [List.getElem?_set_ne (Ne.symm hkj), List.getElem?_set_ne (Ne.symm hki)]

end ManagerLemmas

/-! ## The image collection -/

section ManagerTheorems

variable {E : Type}

/-- C6 (current index stays valid under removal). If the current index is
`-1` or inside the list, it is so again after `closeImage(index)` for any
`index`, after `runRequestedCallbacks`, and after one followed by the other. -/
theorem current_index_stays_valid (view : EntityView E) (m : HDRImageManager E) (index : Int)
    (hvalid : validIndex m.m_current m.m_images.length) :
    validIndex (m.closeImage index).m_current (m.closeImage index).m_images.length ∧
    validIndex (m.runRequestedCallbacks view).m_current
      (m.runRequestedCallbacks view).m_images.length ∧
    validIndex ((m.closeImage index).runRequestedCallbacks view).m_current
      ((m.closeImage index).runRequestedCallbacks view).m_images.length := by
  have hrun : ∀ m' : HDRImageManager E, validIndex m'.m_current m'.m_images.length →
      validIndex (m'.runRequestedCallbacks view).m_current
        (m'.runRequestedCallbacks view).m_images.length := by
    intro m' h'
    rw [(m'.runRequestedCallbacks_fields view).1, (m'.runRequestedCallbacks_fields view).2]
    exact HDRImageManager.pruneLoop_valid view _ 0 m' false (Nat.le_refl _) h'
  exact ⟨m.closeImage_valid index hvalid, hrun m hvalid,
    hrun _ (m.closeImage_valid index hvalid)⟩

/-- Witness of C6: closing the current, last image of three sample entities. -/
theorem current_index_stays_valid_witness :
    validIndex (Sample.collection [Sample.idle 4, Sample.idle 0, Sample.idle 5] 2 (-1)).m_current 3 ∧
    validIndex
      (((Sample.collection [Sample.idle 4, Sample.idle 0, Sample.idle 5] 2 (-1)).closeImage
        2).runRequestedCallbacks Sample.view).m_current
      (((Sample.collection [Sample.idle 4, Sample.idle 0, Sample.idle 5] 2 (-1)).closeImage
        2).runRequestedCallbacks Sample.view).m_images.length :=
  ⟨by decide,
    (current_index_stays_valid Sample.view
      (Sample.collection [Sample.idle 4, Sample.idle 0, Sample.idle 5] 2 (-1)) 2
      (by decide)).2.2⟩

/-- C5 (maintenance pass prunes every failed entity), evaluated where the code
departs from it. Two failed loads stand next to each other (neither is
mid-edit, both hold the empty image) and the second is current. One call of
`runRequestedCallbacks` erases the first, steps over the second, and leaves a
collection that still holds a failed entity. -/
theorem adjacent_failed_entity_survives :
    (Sample.view.prunes (some (Sample.idle 0)) = true) ∧
    ((Sample.collection [Sample.idle 0, Sample.idle 0] 1 (-1)).runRequestedCallbacks
        Sample.view).m_images = [some (Sample.idle 0)] ∧
    ((Sample.collection [Sample.idle 0, Sample.idle 0] 1 (-1)).runRequestedCallbacks
        Sample.view).m_current = 0 ∧
    ((Sample.collection [Sample.idle 0, Sample.idle 0] 1 (-1)).runRequestedCallbacks
        Sample.view).notifications = [.currentImage, .numImages] := by
  have hp : Sample.view.prunes (some (Sample.idle 0)) = true := rfl
  have hloop : HDRImageManager.pruneLoop Sample.view 0
      (Sample.collection [Sample.idle 0, Sample.idle 0] 1 (-1)) false =
      ({ m_images := [some (Sample.idle 0)], m_current := 0, m_reference := -1,
         m_imageModifyDoneRequested := false, notifications := [] }, true) := by
    rw [HDRImageManager.pruneLoop]
    simp [Sample.collection, hp, adjustIndex]
    rw [HDRImageManager.pruneLoop]
    simp
  refine ⟨hp, ?_, ?_, ?_⟩ <;>
    simp [HDRImageManager.runRequestedCallbacks, hloop, HDRImageManager.notify]

/-- C7 (reference index stays valid under removal), evaluated where the code
departs from it. Two images are held and the reference index is on the last
one. `closeImage(0)` adjusts the current index but never writes the reference
index: it stays `1` although one image remains, so it is neither `-1` nor
inside the list. The sibling `closeAllImages` does reset it to `-1`. With
three images and the reference index on the middle one, `closeImage(0)`
leaves the index at `1`, which now denotes another entity. -/
theorem reference_index_dangles :
    validIndex (Sample.collection [Sample.idle 4, Sample.idle 5] 0 1).m_reference
      (Sample.collection [Sample.idle 4, Sample.idle 5] 0 1).m_images.length ∧
    ((Sample.collection [Sample.idle 4, Sample.idle 5] 0 1).image 0).isSome = true ∧
    ((Sample.collection [Sample.idle 4, Sample.idle 5] 0 1).closeImage 0).m_reference = 1 ∧
    ((Sample.collection [Sample.idle 4, Sample.idle 5] 0 1).closeImage 0).m_images =
      [some (Sample.idle 5)] ∧
    ¬ validIndex ((Sample.collection [Sample.idle 4, Sample.idle 5] 0 1).closeImage 0).m_reference
      ((Sample.collection [Sample.idle 4, Sample.idle 5] 0 1).closeImage 0).m_images.length ∧
    ((Sample.collection [Sample.idle 4, Sample.idle 5] 0 1).closeAllImages).m_reference = -1 ∧
    (Sample.collection [Sample.idle 4, Sample.idle 5, Sample.idle 6] 0 1).image 1 =
      some (Sample.idle 5) ∧
    (((Sample.collection [Sample.idle 4, Sample.idle 5, Sample.idle 6] 0 1).closeImage 0).image
      ((Sample.collection [Sample.idle 4, Sample.idle 5, Sample.idle 6] 0 1).closeImage
        0).m_reference) = some (Sample.idle 6) := by
  refine ⟨by decide, rfl, rfl, rfl, ?_, rfl, rfl, rfl⟩
  decide

/-- C8 (closing the last remaining image). On a collection that holds exactly
one image, with current index `0`, `closeImage(0)` leaves the collection
empty, sets the current index to `-1`, and calls the "current image changed"
callback exactly once (followed by one "number of images changed"). -/
theorem close_last_image (e : E) (reference : Int) (requested : Bool)
    (notes : List Notification) :
    (HDRImageManager.closeImage 0
        { m_images := [some e], m_current := 0, m_reference := reference
          m_imageModifyDoneRequested := requested, notifications := notes }).m_images = [] ∧
    (HDRImageManager.closeImage 0
        { m_images := [some e], m_current := 0, m_reference := reference
          m_imageModifyDoneRequested := requested, notifications := notes }).m_current = -1 ∧
    (HDRImageManager.closeImage 0
        { m_images := [some e], m_current := 0, m_reference := reference
          m_imageModifyDoneRequested := requested, notifications := notes }).notifications =
      notes ++ [.currentImage, .numImages] ∧
    (HDRImageManager.closeImage 0
        { m_images := [some e], m_current := 0, m_reference := reference
          m_imageModifyDoneRequested := requested, notifications := notes }).notifications.count
        .currentImage = notes.count .currentImage + 1 := by
  have hn : (HDRImageManager.closeImage 0
        { m_images := [some e], m_current := 0, m_reference := reference
          m_imageModifyDoneRequested := requested, notifications := notes }).notifications =
      notes ++ [.currentImage, .numImages] := by
    simp [HDRImageManager.closeImage, HDRImageManager.image, HDRImageManager.setCurrentImageIndex,
      HDRImageManager.notify, adjustIndex]
  refine ⟨?_, ?_, hn, ?_⟩
  · simp [HDRImageManager.closeImage, HDRImageManager.image, HDRImageManager.setCurrentImageIndex,
      HDRImageManager.notify, adjustIndex]
  · simp [HDRImageManager.closeImage, HDRImageManager.image, HDRImageManager.setCurrentImageIndex,
      HDRImageManager.notify, adjustIndex]
  · rw [hn, List.count_append]
    rfl

/-- C10 (reordering is safe with no selection), evaluated where the code
departs from it. One image is held and none is selected (current index `-1`,
which the data model allows and `setCurrentImageIndex(-1)` produces).
`bringImageForward` swaps `m_images[-1]` with
`m_images[-2]` and `sendImageBackward` swaps `m_images[-1]` with
`m_images[0]`: both access an element outside the image list. -/
theorem reorder_without_selection_out_of_bounds :
    validIndex (Sample.collection [Sample.idle 4] (-1) (-1)).m_current
      (Sample.collection [Sample.idle 4] (-1) (-1)).m_images.length ∧
    (Sample.collection [Sample.idle 4] (-1) (-1)).bringImageForward = none ∧
    (Sample.collection [Sample.idle 4] (-1) (-1)).sendImageBackward = none ∧
    elemAt (Sample.collection [Sample.idle 4] (-1) (-1)).m_images (-1) = none ∧
    ((Sample.collection [Sample.idle 4] 0 (-1)).setCurrentImageIndex (-1) false).m_current = -1 ∧
    ((Sample.collection [Sample.idle 4] 0 (-1)).setCurrentImageIndex (-1) false).m_images =
      (Sample.collection [Sample.idle 4] (-1) (-1)).m_images :=
  ⟨by decide, rfl, rfl, rfl, rfl, rfl⟩

/-- C9 (reordering tracks the current image). Let the current index `k` be
inside the list. With `k > 0`, `bringImageForward` exchanges the entries at
`k` and `k - 1`, leaves every other position unchanged, and sets the current
index to `k - 1`, which denotes the entity that was current; with `k = 0` it
changes nothing. With `k < length - 1`, `sendImageBackward` exchanges the
entries at `k` and `k + 1`, leaves every other position unchanged, and sets
the current index to `k + 1`, which denotes the entity that was current; with
`k = length - 1` it changes nothing. -/
theorem reorder_tracks_current (m : HDRImageManager E) (k : Nat)
    (hcur : m.m_current = (k : Int)) (hk : k < m.m_images.length) :
    (0 < k → ∃ m1, m.bringImageForward = some m1 ∧
      m1.m_current = (k : Int) - 1 ∧
      m1.m_images.length = m.m_images.length ∧
      m1.m_images[k - 1]? = m.m_images[k]? ∧
      m1.m_images[k]? = m.m_images[k - 1]? ∧
      (∀ j, j ≠ k → j ≠ k - 1 → m1.m_images[j]? = m.m_images[j]?) ∧
      elemAt m1.m_images m1.m_current = elemAt m.m_images m.m_current) ∧
    (k = 0 → m.bringImageForward = some m) ∧
    (k + 1 < m.m_images.length → ∃ m1, m.sendImageBackward = some m1 ∧
      m1.m_current = (k : Int) + 1 ∧
      m1.m_images.length = m.m_images.length ∧
      m1.m_images[k + 1]? = m.m_images[k]? ∧
      m1.m_images[k]? = m.m_images[k + 1]? ∧
      (∀ j, j ≠ k → j ≠ k + 1 → m1.m_images[j]? = m.m_images[j]?) ∧
      elemAt m1.m_images m1.m_current = elemAt m.m_images m.m_current) ∧
    (k + 1 = m.m_images.length → m.sendImageBackward = some m) := by
  have hne : ¬ (m.m_images.isEmpty = true) := by
    intro h
    rw [List.isEmpty_iff] at h
    rw [h] at hk
    exact Nat.not_lt_zero _ hk
  refine ⟨?_, ?_, ?_, ?_⟩
  · intro hpos
    obtain ⟨w, hw, hlen, h1, h2, h3⟩ :=
      swapAt_spec m.m_images k (k - 1) hk (by omega) (by omega)
    have hcast : m.m_current - 1 = ((k - 1 : Nat) : Int) := by omega
    have hw1 : swapAt m.m_images m.m_current (m.m_current - 1) = some w := by
      rw [hcast, hcur]; exact hw
    have hcond : ¬ (m.m_images.isEmpty = true ∨ m.m_current = 0) := by
      rintro (h | h)
      · exact hne h
      · omega
    refine ⟨(({ m with m_images := w, m_current := m.m_current - 1 }).notify
        (.imageModifyDone (m.m_current - 1))).notify .currentImage, ?_, ?_, hlen, h2, h1, ?_, ?_⟩
    · unfold HDRImageManager.bringImageForward
      rw [if_neg hcond, hw1]
    · show m.m_current - 1 = (k : Int) - 1
      rw [hcur]
    · intro j hjk hjk1
      exact h3 j hjk hjk1
    · show elemAt w (m.m_current - 1) = elemAt m.m_images m.m_current
      rw [hcast, hcur, elemAt_natCast, elemAt_natCast]
      exact h2
  · intro hzero
    unfold HDRImageManager.bringImageForward
    have hcond : m.m_images.isEmpty = true ∨ m.m_current = 0 := by
      right; rw [hcur, hzero]; rfl
    rw [if_pos hcond]
  · intro hlt
    obtain ⟨w, hw, hlen, h1, h2, h3⟩ :=
      swapAt_spec m.m_images k (k + 1) hk hlt (by omega)
    have hcast : m.m_current + 1 = ((k + 1 : Nat) : Int) := by omega
    have hw1 : swapAt m.m_images m.m_current (m.m_current + 1) = some w := by
      rw [hcast, hcur]; exact hw
    have hcond : ¬ (m.m_images.isEmpty = true ∨
        m.m_current = (m.m_images.length : Int) - 1) := by
      rintro (h | h)
      · exact hne h
      · omega
    refine ⟨(({ m with m_images := w, m_current := m.m_current + 1 }).notify
        (.imageModifyDone (m.m_current + 1))).notify .currentImage, ?_, ?_, hlen, h2, h1, ?_, ?_⟩
    · unfold HDRImageManager.sendImageBackward
      rw [if_neg hcond, hw1]
    · show m.m_current + 1 = (k : Int) + 1
      rw [hcur]
    · intro j hjk hjk1
      exact h3 j hjk hjk1
    · show elemAt w (m.m_current + 1) = elemAt m.m_images m.m_current
      rw [hcast, hcur, elemAt_natCast, elemAt_natCast]
      exact h2
  · intro hlast
    unfold HDRImageManager.sendImageBackward
    have hcond : m.m_images.isEmpty = true ∨
        m.m_current = (m.m_images.length : Int) - 1 := by
      right; omega
    rw [if_pos hcond]

/-- Witness of C9: the middle one of three sample entities is brought forward. -/
theorem reorder_tracks_current_witness :
    ∃ m1, (Sample.collection [Sample.idle 4, Sample.idle 5, Sample.idle 6] 1
        (-1)).bringImageForward = some m1 ∧
      m1.m_current = 0 ∧
      m1.m_images[0]? = some (some (Sample.idle 5)) ∧
      m1.m_images[1]? = some (some (Sample.idle 4)) ∧
      m1.m_images[2]? = some (some (Sample.idle 6)) :=
  have h := (reorder_tracks_current
    (Sample.collection [Sample.idle 4, Sample.idle 5, Sample.idle 6] 1 (-1)) 1 rfl
    (by decide)).1 (by decide)
  h.elim fun m1 hm => ⟨m1, hm.1, hm.2.1, hm.2.2.2.1, hm.2.2.2.2.1,
    hm.2.2.2.2.2.1 2 (by decide) (by decide)⟩

end ManagerTheorems

end HDRView
